import Mathlib

/-!
Shallow embedding of the DeepDDI backend core (src/app.py): the normalizer
registered as the SQL function `normalize`, the two store queries
(`find_drug_info` and the interaction query of `check_drug_interaction_flexible`),
the keyword risk classifier, and the chat intent patterns — together with
theorems checking the specification's claims against these definitions.

Modelling conventions: Python strings are Lean `String`/`List Char`; SQL NULL
is `Option.none`; the backend raising during query execution (the `except`
branches) is a boolean `fail` flag on the store; Python `str.lower` and the
ASCII case folding of SQLite `LIKE` are both modelled by `Char.toLower`
(ASCII-only, which agrees with them on the ASCII range).
-/

namespace DeepDDI

/-- Whitespace characters matched by the regex class `\s` (ASCII range). -/
def isSpacePy (c : Char) : Bool :=
  c == ' ' || c == '\t' || c == '\n' || c == '\r' || c == '\x0b' || c == '\x0c'

/-- Characters removed by the normalization regex character class (whitespace,
round and square brackets, underscore, slash, hyphen) — app.py lines 25/39/58. -/
def isStripChar (c : Char) : Bool :=
  isSpacePy c || c == '(' || c == ')' || c == '[' || c == ']' || c == '_' || c == '/' || c == '-'

/-- Dosage-form token 주사제 (injection) of the normalization regex. -/
def tokJusaje : List Char := ['주', '사', '제']

/-- Dosage-form token 정제 (tablet) of the normalization regex. -/
def tokJeongje : List Char := ['정', '제']

/-- Dosage-form token 캡슐 (capsule) of the normalization regex. -/
def tokCapsule : List Char := ['캡', '슐']

/-- Dosage-form token 시럽 (syrup) of the normalization regex. -/
def tokSyrup : List Char := ['시', '럽']

/-- One left-to-right pass of the substitution
`re.sub` with pattern character-class or 주사제 or 정제 or 정 or 약 or 캡슐 or 시럽,
replacing by the empty string: at each position the character class is tried
first, then the literal tokens in the pattern's alternation order; a match is
removed and scanning resumes right after it.  The fuel argument makes the
recursion structural; `scanRemove` instantiates it with the list length, which
is always sufficient since every step consumes at least one character. -/
def scanRemoveF : Nat → List Char → List Char
  | 0, l => l
  | _ + 1, [] => []
  | f + 1, c :: cs =>
    if isStripChar c then scanRemoveF f cs
    else if tokJusaje.isPrefixOf (c :: cs) then scanRemoveF f (cs.drop 2)
    else if tokJeongje.isPrefixOf (c :: cs) then scanRemoveF f (cs.drop 1)
    else if c == '정' then scanRemoveF f cs
    else if c == '약' then scanRemoveF f cs
    else if tokCapsule.isPrefixOf (c :: cs) then scanRemoveF f (cs.drop 1)
    else if tokSyrup.isPrefixOf (c :: cs) then scanRemoveF f (cs.drop 1)
    else c :: scanRemoveF f cs

/-- The regex-substitution pass at its canonical fuel. -/
def scanRemove (l : List Char) : List Char := scanRemoveF l.length l

/-- Python `str.strip`: remove leading and trailing whitespace. -/
def stripEnds (l : List Char) : List Char :=
  ((l.dropWhile isSpacePy).reverse.dropWhile isSpacePy).reverse

/-- The normalizer (app.py lines 23-25) on a non-null string: remove the
character class and the dosage-form tokens, strip, lower-case.  The very same
expression is inlined at lines 39, 58-59, 206 and 211/217 of the source. -/
def normalize_text (s : String) : String :=
  String.mk ((stripEnds (scanRemove s.data)).map Char.toLower)

/-- The SQL-registered `normalize`, which maps NULL to NULL. -/
def normalizeSql : Option String → Option String :=
  Option.map normalize_text

/-- Distinct elements of the remaining list, skipping those already seen. -/
def dedupSeen {α : Type} [DecidableEq α] (seen : List α) : List α → List α
  | [] => []
  | x :: xs => if x ∈ seen then dedupSeen seen xs else x :: dedupSeen (x :: seen) xs

/-- Distinct elements keeping first occurrences, as SELECT DISTINCT and the
pandas first-keep deduplications produce. -/
def dedupFirst {α : Type} [DecidableEq α] (l : List α) : List α :=
  dedupSeen [] l

/-- SQLite LIKE matching of a pattern against a text: a percent sign matches
any character sequence, an underscore any single character, and plain
characters compare ASCII-case-insensitively.  Fuel keeps the recursion
structural; each step shortens the pattern or the text, so the fuel used by
`likeMatch` below never runs out. -/
def likeMatchF : Nat → List Char → List Char → Bool
  | 0, _, _ => false
  | _ + 1, [], t => t.isEmpty
  | f + 1, '%' :: ps, t =>
    likeMatchF f ps t ||
      (match t with
       | [] => false
       | _ :: ts => likeMatchF f ('%' :: ps) ts)
  | _ + 1, '_' :: _, [] => false
  | f + 1, '_' :: ps, _ :: ts => likeMatchF f ps ts
  | _ + 1, _ :: _, [] => false
  | f + 1, p :: ps, c :: ts => (p.toLower == c.toLower) && likeMatchF f ps ts

/-- SQLite LIKE at its canonical fuel. -/
def likeMatch (pat text : List Char) : Bool :=
  likeMatchF (pat.length + text.length + 1) pat text

/-- The LIKE pattern percent-query-percent built from a cleaned query string. -/
def mkPat (q : List Char) : List Char := '%' :: (q ++ ['%'])

/-- The SQL condition `normalize(column) LIKE pattern`: a NULL column yields
SQL NULL, which never satisfies the WHERE clause. -/
def colLike (col : Option String) (pat : List Char) : Bool :=
  match col with
  | none => false
  | some s => likeMatch pat (normalize_text s).data

/-- One row of the druglist table: 제품명A, 성분명A, 제품명B, 성분명B, 상세정보. -/
structure Row where
  productA : Option String
  ingredientA : Option String
  productB : Option String
  ingredientB : Option String
  detail : Option String
deriving DecidableEq

/-- The reference store: the read-only druglist table, plus a flag modelling
the query engine raising an exception during execution (the `except` branches
of app.py). -/
structure Store where
  rows : List Row
  fail : Bool

/-- app.py lines 37-54 (`find_drug_info`): clean the query, return the empty
result when the cleaned form is shorter than 2 characters, otherwise
SELECT DISTINCT the four name columns of every row whose normalized columns
LIKE-match the query.  A backend failure is caught and also yields the empty
result (the DataFrame returned by the except branch). -/
def find_drug_info (st : Store) (query : String) :
    List (Option String × Option String × Option String × Option String) :=
  let cleaned := normalize_text query
  if cleaned.length < 2 then []
  else if st.fail then []
  else
    dedupFirst ((st.rows.filter (fun r =>
      colLike r.productA (mkPat cleaned.data) || colLike r.ingredientA (mkPat cleaned.data) ||
        colLike r.productB (mkPat cleaned.data) || colLike r.ingredientB (mkPat cleaned.data))).map
      (fun r => (r.productA, r.ingredientA, r.productB, r.ingredientB)))

/-- The dangerous keyword list of app.py line 95, in source order. -/
def dangerous_keywords : List String :=
  ["사망", "흥분", "정신착란", "금기", "투여 금지", "독성 증가", "치명적인", "심각한",
   "유산 산성증", "고칼륨혈증", "심실성 부정맥", "위험성 증가", "위험 증가", "심장 부정맥",
   "QT간격 연장 위험 증가", "QT연장", "심부정맥", "중대한", "심장 모니터링", "병용금기",
   "Torsade de pointes 위험 증가", "위험이 증가함", "약물이상반응 발생 위험", "독성",
   "허혈", "혈관경련"]

/-- The caution keyword list of app.py line 96, in source order. -/
def caution_keywords : List String :=
  ["치료 효과가 제한적", "중증의 위장관계 이상반응", "Alfuzosin 혈중농도 증가",
   "양쪽 약물 모두 혈장농도 상승 가능", "Amiodarone 혈중농도 증가", "혈중농도 증가",
   "횡문근융해와 같은 중증의 근육이상 보고", "혈장 농도 증가",
   "Finerenone 혈중농도의 현저한 증가가 예상됨"]

/-- Substring containment of a pattern in a text (Python `pattern in text`). -/
def isSubL (p : List Char) : List Char → Bool
  | [] => p.isEmpty
  | c :: cs => p.isPrefixOf (c :: cs) || isSubL p cs

/-- Python `pat in hay` on strings. -/
def strContains (hay pat : String) : Bool := isSubL pat.data hay.data

/-- Python `str` applied to a detail value that may be NULL (None prints as
the four-letter string; an all-NaN column would print as nan — either way no
keyword matches the stringified null). -/
def pyStr : Option String → String
  | none => "None"
  | some s => s

/-- Whether some dangerous keyword occurs in the detail string. -/
def hasDangerKw (s : String) : Bool := dangerous_keywords.any (fun k => strContains s k)

/-- Whether some caution keyword occurs in the detail string. -/
def hasCautionKw (s : String) : Bool := caution_keywords.any (fun k => strContains s k)

/-- The explanation line appended for a dangerous detail (app.py line 109). -/
def dangerLine (s : String) : String := "🚨 **위험**: " ++ s

/-- The explanation line appended for a caution detail (app.py line 116). -/
def cautionLine (s : String) : String := "⚠️ **주의**: " ++ s

/-- The keyword loop of app.py lines 98-117 over the deduplicated detail
values, carrying the processed-details set, the current risk level and the
accumulated reasons.  The source adds the detail to the processed set before
the keyword tests; as the set is consulted only at the head of the iteration,
adding it in each non-skip branch is the same computation. -/
def classifyLoop :
    List (Option String) → List (Option String) → String → List String → String × List String
  | [], _, risk, reasons => (risk, reasons)
  | d :: rest, processed, risk, reasons =>
    if d ∈ processed then classifyLoop rest processed risk reasons
    else if hasDangerKw (pyStr d) then
      classifyLoop rest (d :: processed) "위험" (reasons ++ [dangerLine (pyStr d)])
    else if hasCautionKw (pyStr d) then
      classifyLoop rest (d :: processed) (if risk = "위험" then risk else "주의")
        (reasons ++ [cautionLine (pyStr d)])
    else classifyLoop rest (d :: processed) risk reasons

/-- The A-columns half of the interaction WHERE clause for one pattern. -/
def aColsLike (r : Row) (p : List Char) : Bool :=
  colLike r.productA (mkPat p) || colLike r.ingredientA (mkPat p)

/-- The B-columns half of the interaction WHERE clause for one pattern. -/
def bColsLike (r : Row) (p : List Char) : Bool :=
  colLike r.productB (mkPat p) || colLike r.ingredientB (mkPat p)

/-- The WHERE clause of the interaction query (app.py lines 71-78):
(A-columns match drug A and B-columns match drug B) or
(A-columns match drug B and B-columns match drug A). -/
def wherePred (pa pb : List Char) (r : Row) : Bool :=
  (aColsLike r pa && bColsLike r pb) || (aColsLike r pb && bColsLike r pa)

/-- SELECT DISTINCT 제품명A, 제품명B, 상세정보 over the rows satisfying the
interaction WHERE clause, for two cleaned queries. -/
def interactionRowsC (st : Store) (pa pb : List Char) :
    List (Option String × Option String × Option String) :=
  dedupFirst ((st.rows.filter (wherePred pa pb)).map (fun r => (r.productA, r.productB, r.detail)))

/-- The interaction result rows for two raw drug-name queries. -/
def rowsOf (st : Store) (a b : String) : List (Option String × Option String × Option String) :=
  interactionRowsC st (normalize_text a).data (normalize_text b).data

/-- The distinct product names across the A and B product columns of the
result rows (the `unique_products` set of app.py line 87; a NULL product
counts as one member, as it does in the Python set). -/
def uniqueProductsOf (st : Store) (a b : String) : List (Option String) :=
  dedupFirst ((rowsOf st a b).map (fun t => t.1) ++ (rowsOf st a b).map (fun t => t.2.1))

/-- The distinct detail values in first-seen order (drop_duplicates on 상세정보
followed by `.unique()` on that column). -/
def detailsOf (st : Store) (a b : String) : List (Option String) :=
  dedupFirst ((rowsOf st a b).map (fun t => t.2.2))

/-- The keyword loop run on the distinct details, from level 안전 and no reasons. -/
def loopOf (st : Store) (a b : String) : String × List String :=
  classifyLoop (detailsOf st a b) [] "안전" []

/-- Message for a too-short drug name (app.py line 62). -/
def shortMsg : String := "약물 이름이 너무 짧습니다. (2글자 이상 입력)"

/-- Message for a backend failure of the interaction query (app.py line 82). -/
def errorMsg : String := "데이터베이스 검색 중 오류가 발생했습니다."

/-- Message when no interaction rows were found (app.py line 85). -/
def noInfoMsg (a b : String) : String :=
  "'" ++ a ++ "'와 '" ++ b ++ "' 간의 상호작용 정보가 없습니다."

/-- Message when more than two distinct products matched (app.py line 90). -/
def tooManyMsg : String :=
  "🔍 **검색 결과가 너무 많습니다.**\n\n해당하는 제품/용량이 여러 개 있습니다. 약물 이름을 더 정확하게 입력해주세요.\n(예: '구주염산페치딘주 50mg')"

/-- Fallback explanation when no keyword matched any detail (app.py line 120). -/
def fallbackMsg : String :=
  "ℹ️ 상호작용 정보가 있으나, 지정된 위험/주의 키워드는 발견되지 않았습니다. 전문가와 상담하세요."

/-- Python `sep.join`. -/
def joinSep (sep : String) : List String → String
  | [] => ""
  | x :: xs => xs.foldl (fun acc y => acc ++ sep ++ y) x

/-- app.py lines 56-122 (`check_drug_interaction_flexible`).  Level names of
the source and their spec names: 정보 없음 insufficient-input, 오류 error,
안전 safe, 정보 확인 ambiguous, 위험 danger, 주의 caution. -/
def check_drug_interaction_flexible (st : Store) (drugA drugB : String) : String × String :=
  if (normalize_text drugA).length < 2 ∨ (normalize_text drugB).length < 2 then
    ("정보 없음", shortMsg)
  else if st.fail then ("오류", errorMsg)
  else if rowsOf st drugA drugB = [] then ("안전", noInfoMsg drugA drugB)
  else if 2 < (uniqueProductsOf st drugA drugB).length then ("정보 확인", tooManyMsg)
  else if (loopOf st drugA drugB).2 = [] then ("정보 확인", fallbackMsg)
  else ((loopOf st drugA drugB).1, joinSep "\n\n" (loopOf st drugA drugB).2)

/-- Alternation 뭐야 or 알려줘 of the ingredient pattern (the trailing optional
question mark and the unanchored remainder always succeed). -/
def componentKw (w : List Char) : Bool :=
  ['뭐', '야'].isPrefixOf w || ['알', '려', '줘'].isPrefixOf w

/-- Optional single-space class before the keyword alternation. -/
def componentOptSpace (w : List Char) : Bool :=
  (match w with
   | ' ' :: w2 => componentKw w2
   | _ => false) || componentKw w

/-- Optional particle 이 after the literal 성분. -/
def componentAfterSeongbun (v : List Char) : Bool :=
  (match v with
   | '이' :: v2 => componentOptSpace v2
   | _ => false) || componentOptSpace v

/-- Tail of the ingredient pattern after the lazy first group: the greedy
whitespace run, then the literal 성분, then the optional pieces.  The literal
starts with a non-space character, so consuming the maximal whitespace run is
complete. -/
def componentTail (t : List Char) : Bool :=
  ['성', '분'].isPrefixOf (t.dropWhile isSpacePy) &&
    componentAfterSeongbun ((t.dropWhile isSpacePy).drop 2)

/-- Lazy search for group 1 of the ingredient pattern: the shortest nonempty
newline-free prefix whose continuation matches the pattern tail (a dot never
matches a newline, so no longer prefix can succeed past one). -/
def componentSearch (acc : List Char) : List Char → Option (List Char)
  | [] => none
  | c :: cs =>
    if c == '\n' then none
    else if componentTail cs then some (acc ++ [c])
    else componentSearch (acc ++ [c]) cs

/-- re.match of the ingredient pattern of app.py line 195 against a string,
returning the captured group 1. -/
def matchComponent (s : String) : Option String :=
  (componentSearch [] s.data).map String.mk

/-- Final alternation 돼, 되나, 될까 or 되나요 of the verbose pattern. -/
def endPart (w : List Char) : Bool :=
  ['돼'].isPrefixOf w || ['되', '나'].isPrefixOf w || ['될', '까'].isPrefixOf w ||
    ['되', '나', '요'].isPrefixOf w

/-- One-or-more whitespace then a continuation starting with a non-space
literal, for which consuming the maximal run is complete. -/
def spaceThen (f : List Char → Bool) (v : List Char) : Bool :=
  match v with
  | [] => false
  | c :: _ => isSpacePy c && f (v.dropWhile isSpacePy)

/-- Verb alternation 복용해도 or 먹어도 then whitespace then the ending. -/
def verbPart (w : List Char) : Bool :=
  (['복', '용', '해', '도'].isPrefixOf w && spaceThen endPart (w.drop 4)) ||
    (['먹', '어', '도'].isPrefixOf w && spaceThen endPart (w.drop 3))

/-- Alternation 같이 or 함께 then whitespace then the verb phrase. -/
def togPart (w : List Char) : Bool :=
  (['같', '이'].isPrefixOf w || ['함', '께'].isPrefixOf w) && spaceThen verbPart (w.drop 2)

/-- After the lazy second group: optional object particle 를 or 을, then
whitespace and the 같이/함께 phrase. -/
def afterG2 (v : List Char) : Bool :=
  (match v with
   | c :: v2 => (c == '를' || c == '을') && spaceThen togPart v2
   | [] => false) || spaceThen togPart v

/-- Lazy search for group 2 of the verbose pattern. -/
def g2Search (acc : List Char) : List Char → Option (List Char)
  | [] => none
  | c :: cs =>
    if c == '\n' then none
    else if afterG2 cs then some (acc ++ [c])
    else g2Search (acc ++ [c]) cs

/-- The greedy one-or-more whitespace before the lazy second group: the regex
first consumes the whole whitespace run, backing off one space at a time down
to a single space, and for each amount searches group 2 lazily. -/
def spacePlusG2 : Nat → List Char → Option (List Char)
  | 0, _ => none
  | k + 1, t =>
    match g2Search [] (t.drop (k + 1)) with
    | some g => some g
    | none => spacePlusG2 k t

/-- The connector alternation 이랑, 랑, 과, 와, 하고 (mutually exclusive at any
position since their first characters differ) and the rest of the verbose
pattern; returns the captured group 2. -/
def connTail (u : List Char) : Option (List Char) :=
  if ['이', '랑'].isPrefixOf u then
    spacePlusG2 ((u.drop 2).takeWhile isSpacePy).length (u.drop 2)
  else if ['랑'].isPrefixOf u then
    spacePlusG2 ((u.drop 1).takeWhile isSpacePy).length (u.drop 1)
  else if ['과'].isPrefixOf u then
    spacePlusG2 ((u.drop 1).takeWhile isSpacePy).length (u.drop 1)
  else if ['와'].isPrefixOf u then
    spacePlusG2 ((u.drop 1).takeWhile isSpacePy).length (u.drop 1)
  else if ['하', '고'].isPrefixOf u then
    spacePlusG2 ((u.drop 2).takeWhile isSpacePy).length (u.drop 2)
  else none

/-- Lazy search for group 1 of the verbose pattern: shortest nonempty
newline-free prefix followed by optional whitespace, a connector and the rest. -/
def verboseSearch (acc : List Char) : List Char → Option (List Char × List Char)
  | [] => none
  | c :: cs =>
    if c == '\n' then none
    else
      match connTail (cs.dropWhile isSpacePy) with
      | some g2 => some (acc ++ [c], g2)
      | none => verboseSearch (acc ++ [c]) cs

/-- re.match of the verbose interaction pattern of app.py line 256, returning
the two captured drug names. -/
def matchInteractionVerbose (s : String) : Option (String × String) :=
  (verboseSearch [] s.data).map (fun q => (String.mk q.1, String.mk q.2))

/-- re.match of the anchored two-token fallback pattern of app.py line 258:
exactly two whitespace-separated tokens with nothing else. -/
def matchTwoTokens (s : String) : Option (String × String) :=
  let t0 := s.data.dropWhile isSpacePy
  let tok1 := t0.takeWhile (fun c => !isSpacePy c)
  let r1 := t0.drop tok1.length
  let sp := r1.takeWhile isSpacePy
  let r2 := r1.drop sp.length
  let tok2 := r2.takeWhile (fun c => !isSpacePy c)
  let r3 := r2.drop tok2.length
  if (!tok1.isEmpty) && (!sp.isEmpty) && (!tok2.isEmpty) && r3.all isSpacePy then
    some (String.mk tok1, String.mk tok2)
  else none

/-- Python `prompt.strip()`. -/
def pyStrip (s : String) : String := String.mk (stripEnds s.data)

/-- The character set of `.strip('() ')` applied to captured drug names. -/
def isParenSpace (c : Char) : Bool := c == '(' || c == ')' || c == ' '

/-- Python `.strip('() ')`. -/
def stripParenSpace (s : String) : String :=
  String.mk (((s.data.dropWhile isParenSpace).reverse.dropWhile isParenSpace).reverse)

/-- The intent extracted from a free-text prompt. -/
inductive Intent where
  | ingredientQuery (drugName : String)
  | interactionQuery (drugA drugB : String)
  | unrecognized
deriving DecidableEq

/-- app.py lines 195-262: the ingredient pattern is matched first on the
stripped prompt; only when it fails is the verbose interaction pattern tried,
and only when that also fails, the two-token fallback.  Captured names are
stripped of surrounding parentheses and spaces, as in the source. -/
def parseIntent (prompt : String) : Intent :=
  match matchComponent (pyStrip prompt) with
  | some g1 => Intent.ingredientQuery (stripParenSpace g1)
  | none =>
    match matchInteractionVerbose (pyStrip prompt) with
    | some (a, b) => Intent.interactionQuery (stripParenSpace a) (stripParenSpace b)
    | none =>
      match matchTwoTokens (pyStrip prompt) with
      | some (a, b) => Intent.interactionQuery (stripParenSpace a) (stripParenSpace b)
      | none => Intent.unrecognized

/-- The six literal tokens removed by the normalization regex. -/
def removalTokens : List (List Char) :=
  [tokJusaje, tokJeongje, ['정'], ['약'], tokCapsule, tokSyrup]

/-- Whether none of the removal tokens occurs as a substring. -/
def tokensFree (l : List Char) : Bool := removalTokens.all (fun t => !(isSubL t l))

theorem mem_dedupSeen {α : Type} [DecidableEq α] (a : α) :
    ∀ (l seen : List α), a ∈ dedupSeen seen l ↔ a ∈ l ∧ a ∉ seen := by
  intro l
  induction l with
  | nil => intro seen; simp [dedupSeen]
  | cons x xs ih =>
    intro seen
    by_cases hx : x ∈ seen
    · simp only [dedupSeen, if_pos hx, ih, List.mem_cons]
      constructor
      · rintro ⟨h1, h2⟩; exact ⟨Or.inr h1, h2⟩
      · rintro ⟨h1 | h1, h2⟩
        · exact absurd (h1 ▸ hx) h2
        · exact ⟨h1, h2⟩
    · simp only [dedupSeen, if_neg hx, List.mem_cons, ih]
      constructor
      · rintro (rfl | ⟨h1, h2⟩)
        · exact ⟨Or.inl rfl, hx⟩
        · have h3 : a ≠ x ∧ a ∉ seen := by
            constructor
            · intro hax; exact h2 (by simp [hax])
            · intro has; exact h2 (by simp [has])
          exact ⟨Or.inr h1, h3.2⟩
      · rintro ⟨h1, h2⟩
        by_cases hax : a = x
        · exact Or.inl hax
        · refine Or.inr ⟨h1.resolve_left hax, ?_⟩
          simp [List.mem_cons, hax, h2]

theorem nodup_dedupSeen {α : Type} [DecidableEq α] :
    ∀ (l seen : List α), (dedupSeen seen l).Nodup := by
  intro l
  induction l with
  | nil => intro seen; simp [dedupSeen]
  | cons x xs ih =>
    intro seen
    by_cases hx : x ∈ seen
    · simpa [dedupSeen, hx] using ih seen
    · simp only [dedupSeen, if_neg hx, List.nodup_cons]
      exact ⟨fun hmem => by simp [mem_dedupSeen] at hmem, ih _⟩

theorem mem_dedupFirst {α : Type} [DecidableEq α] (a : α) (l : List α) :
    a ∈ dedupFirst l ↔ a ∈ l := by
  simp [dedupFirst, mem_dedupSeen]

theorem nodup_dedupFirst {α : Type} [DecidableEq α] (l : List α) :
    (dedupFirst l).Nodup :=
  nodup_dedupSeen l []

theorem wherePred_comm (pa pb : List Char) (r : Row) :
    wherePred pa pb r = wherePred pb pa r :=
  Bool.or_comm _ _

theorem interactionRowsC_comm (st : Store) (pa pb : List Char) :
    interactionRowsC st pa pb = interactionRowsC st pb pa := by
  unfold interactionRowsC
  rw [List.filter_congr (fun r _ => wherePred_comm pa pb r)]

theorem rowsOf_comm (st : Store) (a b : String) : rowsOf st a b = rowsOf st b a :=
  interactionRowsC_comm st _ _

/-- C4: for every store and every two drug-name strings A and B,
`classify(A, B)` and `classify(B, A)` return the same risk level: the length
check, the failure check, the bidirectional OR query and the keyword loop are
all symmetric in the two names; only the no-rows message mentions them in
order. -/
theorem classify_level_symmetric (st : Store) (A B : String) :
    (check_drug_interaction_flexible st A B).1 =
      (check_drug_interaction_flexible st B A).1 := by
  have hr : rowsOf st B A = rowsOf st A B := (rowsOf_comm st A B).symm
  have hu : uniqueProductsOf st B A = uniqueProductsOf st A B := by
    unfold uniqueProductsOf; rw [hr]
  have hl : loopOf st B A = loopOf st A B := by
    unfold loopOf detailsOf; rw [hr]
  unfold check_drug_interaction_flexible
  rw [hr, hu, hl]
  split_ifs <;> first | rfl | tauto

/-- C3: with both cleaned names long enough, no backend failure and no matched
rows, classify reports level 안전 (safe) with the no-information message for
the two raw names — absence of data is reported as safe. -/
theorem classify_no_rows_safe (st : Store) (A B : String)
    (hA : 2 ≤ (normalize_text A).length) (hB : 2 ≤ (normalize_text B).length)
    (hf : st.fail = false) (hr : rowsOf st A B = []) :
    check_drug_interaction_flexible st A B = ("안전", noInfoMsg A B) := by
  unfold check_drug_interaction_flexible
  rw [if_neg (by omega), if_neg (by simp [hf]), if_pos hr]

theorem classify_no_rows_safe_witness :
    check_drug_interaction_flexible ⟨[], false⟩ "ab" "cd" = ("안전", noInfoMsg "ab" "cd") :=
  classify_no_rows_safe ⟨[], false⟩ "ab" "cd" (by decide) (by decide) rfl (by decide)

/-- C5: a query whose normalized form is shorter than 2 characters makes the
store lookup return the empty sequence, and makes classify return level
정보 없음 (insufficient input) with the too-short message; both hold for every
store, failing ones included, so the store is never consulted. -/
theorem short_input_insufficient (st : Store) (q A B : String)
    (hq : (normalize_text q).length < 2)
    (hAB : (normalize_text A).length < 2 ∨ (normalize_text B).length < 2) :
    find_drug_info st q = [] ∧
      check_drug_interaction_flexible st A B = ("정보 없음", shortMsg) := by
  constructor
  · unfold find_drug_info
    simp only [hq, if_true]
  · unfold check_drug_interaction_flexible
    rw [if_pos hAB]

theorem short_input_insufficient_witness :
    find_drug_info ⟨[], true⟩ "a" = [] ∧
      check_drug_interaction_flexible ⟨[], true⟩ "a" "bc" = ("정보 없음", shortMsg) :=
  short_input_insufficient ⟨[], true⟩ "a" "a" "bc" (by decide) (Or.inl (by decide))

/-- C6 counterexample: normalization is not idempotent.  Removing the token
주사제 from 주주사제사제 splices the surrounding characters into a fresh
occurrence of 주사제, which a second normalization pass removes. -/
theorem normalize_not_idempotent :
    normalize_text (normalize_text "주주사제사제") ≠ normalize_text "주주사제사제" := by
  decide

/-- C2: when the matched rows span more than two distinct product names,
classify returns level 정보 확인 (ambiguous) with the fixed ask-for-a-more-
specific-name message, and the keyword loop is never consulted. -/
theorem too_many_products_ambiguous (st : Store) (A B : String)
    (hA : 2 ≤ (normalize_text A).length) (hB : 2 ≤ (normalize_text B).length)
    (hf : st.fail = false) (hup : 2 < (uniqueProductsOf st A B).length) :
    check_drug_interaction_flexible st A B = ("정보 확인", tooManyMsg) := by
  have hr : rowsOf st A B ≠ [] := by
    intro h
    rw [uniqueProductsOf, h] at hup
    simp [dedupFirst, dedupSeen] at hup
  unfold check_drug_interaction_flexible
  rw [if_neg (by omega), if_neg (by simp [hf]), if_neg hr, if_pos hup]

theorem too_many_products_ambiguous_witness :
    check_drug_interaction_flexible
      ⟨[⟨some "ab1", none, some "cd1", none, some "사망"⟩,
        ⟨some "ab2", none, some "cd2", none, some "사망"⟩], false⟩
      "ab" "cd" = ("정보 확인", tooManyMsg) :=
  too_many_products_ambiguous _ "ab" "cd" (by decide) (by decide) rfl (by decide)

theorem loop_allnone :
    ∀ (l processed : List (Option String)) (risk : String) (rs : List String),
      (∀ d ∈ l, d = none) → classifyLoop l processed risk rs = (risk, rs) := by
  intro l
  induction l with
  | nil => intro processed risk rs _; rfl
  | cons h t ih =>
    intro processed risk rs hall
    have hh : h = none := hall h (by simp)
    subst hh
    have hrest : ∀ d ∈ t, d = none := fun d hd => hall d (by simp [hd])
    have hd : hasDangerKw (pyStr none) = false := by decide
    have hc : hasCautionKw (pyStr none) = false := by decide
    by_cases hp : (none : Option String) ∈ processed
    · simp only [classifyLoop, if_pos hp]
      exact ih processed risk rs hrest
    · simp only [classifyLoop, if_neg hp, hd, hc, if_false, Bool.false_eq_true]
      exact ih _ risk rs hrest

/-- C10: when every matched detail is NULL (stringified, it matches no
keyword) and at most two distinct products matched, classify returns level
정보 확인 (ambiguous) with the single fallback explanation — not 안전. -/
theorem null_details_ambiguous (st : Store) (A B : String)
    (hA : 2 ≤ (normalize_text A).length) (hB : 2 ≤ (normalize_text B).length)
    (hf : st.fail = false) (hr : rowsOf st A B ≠ [])
    (hup : ¬ 2 < (uniqueProductsOf st A B).length)
    (hall : ∀ d ∈ detailsOf st A B, d = none) :
    check_drug_interaction_flexible st A B = ("정보 확인", fallbackMsg) := by
  have hloop : loopOf st A B = ("안전", []) := loop_allnone _ _ _ _ hall
  unfold check_drug_interaction_flexible
  rw [if_neg (by omega), if_neg (by simp [hf]), if_neg hr, if_neg hup, if_pos (by rw [hloop])]

theorem null_details_ambiguous_witness :
    check_drug_interaction_flexible
      ⟨[⟨some "ab1", none, some "cd1", none, none⟩], false⟩
      "ab" "cd" = ("정보 확인", fallbackMsg) :=
  null_details_ambiguous _ "ab" "cd" (by decide) (by decide) rfl (by decide) (by decide)
    (by decide)

/-- C7 counterexample: on the spec's round-trip store, whose detail
"contraindicated, risk of death" contains none of the configured (Korean)
danger or caution keywords, classify returns level 정보 확인 (ambiguous) with
the fallback message — not 위험 (danger). -/
theorem roundtrip_scenario_not_danger :
    check_drug_interaction_flexible
      ⟨[⟨some "TylenolER", some "acetaminophen", some "AspirinPlus", some "aspirin",
         some "contraindicated, risk of death"⟩], false⟩
      "tylenol" "aspirin" = ("정보 확인", fallbackMsg) ∧ ("정보 확인" : String) ≠ "위험" :=
  ⟨by decide, by decide⟩

/-- C7 amended: the round-trip scenario with a detail that contains a
configured danger keyword (금기 inside 병용금기): classify("tylenol","aspirin")
returns level 위험 with the explanation containing that detail. -/
theorem roundtrip_scenario_korean_danger :
    check_drug_interaction_flexible
      ⟨[⟨some "TylenolER", some "acetaminophen", some "AspirinPlus", some "aspirin",
         some "병용금기, risk of death"⟩], false⟩
      "tylenol" "aspirin" = ("위험", dangerLine "병용금기, risk of death") := by
  decide

/-- C8 counterexample: a backend failure in the product-lookup path is not
surfaced as an error — `find_drug_info` swallows it and returns the empty
result, even though the same store without the failure returns a match. -/
theorem find_drug_info_swallows_failure :
    find_drug_info
        ⟨[⟨some "AspirinPlus", some "aspirin", some "TylenolER", some "acetaminophen",
           none⟩], true⟩ "aspirin" = [] ∧
      find_drug_info
        ⟨[⟨some "AspirinPlus", some "aspirin", some "TylenolER", some "acetaminophen",
           none⟩], false⟩ "aspirin" ≠ [] :=
  ⟨by decide, by decide⟩

/-- C8 amended: a store-query failure makes the interaction path return level
오류 (error) with the generic apology message carrying no internal detail,
while the product-lookup path swallows the failure and returns the empty row
set, indistinguishable from no match; neither path retries. -/
theorem store_failure_surfacing (st : Store) (q A B : String)
    (hf : st.fail = true)
    (hA : 2 ≤ (normalize_text A).length) (hB : 2 ≤ (normalize_text B).length) :
    find_drug_info st q = [] ∧
      check_drug_interaction_flexible st A B = ("오류", errorMsg) := by
  constructor
  · unfold find_drug_info
    by_cases hq : (normalize_text q).length < 2 <;> simp [hq, hf]
  · unfold check_drug_interaction_flexible
    rw [if_neg (by omega), if_pos hf]

theorem store_failure_surfacing_witness :
    find_drug_info ⟨[], true⟩ "ab" = [] ∧
      check_drug_interaction_flexible ⟨[], true⟩ "ab" "cd" = ("오류", errorMsg) :=
  store_failure_surfacing ⟨[], true⟩ "ab" "ab" "cd" rfl (by decide) (by decide)

theorem cautionLine_inj {a b : String} (h : cautionLine a = cautionLine b) : a = b := by
  unfold cautionLine at h
  have h2 := congrArg String.data h
  simp only [String.data_append] at h2
  exact String.ext (List.append_cancel_left h2)

theorem caution_ne_danger (a b : String) : cautionLine a ≠ dangerLine b := by
  intro h
  have h2 := congrArg String.data h
  simp only [cautionLine, dangerLine, String.data_append] at h2
  have h3 := congrArg List.head? h2
  have hc : (("⚠️ **주의**: ").data ++ a.data).head? = some '⚠' := rfl
  have hd : (("🚨 **위험**: ").data ++ b.data).head? = some '🚨' := rfl
  rw [hc, hd] at h3
  exact absurd (Option.some.inj h3) (by decide)

theorem loop_sticky_danger :
    ∀ (l processed : List (Option String)) (rs : List String),
      (classifyLoop l processed "위험" rs).1 = "위험" := by
  intro l
  induction l with
  | nil => intro p rs; rfl
  | cons h t ih =>
    intro p rs
    by_cases hp : h ∈ p
    · simp only [classifyLoop, if_pos hp]; exact ih p rs
    · by_cases hd : hasDangerKw (pyStr h)
      · simp only [classifyLoop, if_neg hp, hd, if_true]; exact ih _ _
      · by_cases hc : hasCautionKw (pyStr h)
        · simp only [classifyLoop, if_neg hp, hd, hc, Bool.false_eq_true, if_false, if_true,
            if_pos rfl]
          exact ih _ _
        · simp only [classifyLoop, if_neg hp, hd, hc, Bool.false_eq_true, if_false]
          exact ih _ _

theorem loop_reasons_mono (x : String) :
    ∀ (l processed : List (Option String)) (risk : String) (rs : List String),
      x ∈ rs → x ∈ (classifyLoop l processed risk rs).2 := by
  intro l
  induction l with
  | nil => intro p r rs hx; exact hx
  | cons h t ih =>
    intro p r rs hx
    by_cases hp : h ∈ p
    · simp only [classifyLoop, if_pos hp]; exact ih _ _ _ hx
    · by_cases hd : hasDangerKw (pyStr h)
      · simp only [classifyLoop, if_neg hp, hd, if_true]
        exact ih _ _ _ (List.mem_append_left _ hx)
      · by_cases hc : hasCautionKw (pyStr h)
        · simp only [classifyLoop, if_neg hp, hd, hc, Bool.false_eq_true, if_false, if_true]
          exact ih _ _ _ (List.mem_append_left _ hx)
        · simp only [classifyLoop, if_neg hp, hd, hc, Bool.false_eq_true, if_false]
          exact ih _ _ _ hx

theorem loop_reach (d : Option String) (hdang : hasDangerKw (pyStr d) = true) :
    ∀ (l processed : List (Option String)) (risk : String) (rs : List String),
      l.Nodup → (∀ x ∈ l, x ∉ processed) → d ∈ l →
      (classifyLoop l processed risk rs).1 = "위험" ∧
        dangerLine (pyStr d) ∈ (classifyLoop l processed risk rs).2 := by
  intro l
  induction l with
  | nil => intro p r rs _ _ hdl; simp at hdl
  | cons h t ih =>
    intro p r rs hnd hdisj hdl
    have hp : h ∉ p := hdisj h (List.mem_cons_self h t)
    have hht : h ∉ t := (List.nodup_cons.mp hnd).1
    have hnd' : t.Nodup := (List.nodup_cons.mp hnd).2
    have hdisj' : ∀ x ∈ t, x ∉ h :: p := by
      intro x hx
      simp only [List.mem_cons, not_or]
      constructor
      · intro hxh; exact hht (hxh ▸ hx)
      · exact hdisj x (List.mem_cons_of_mem h hx)
    rcases List.mem_cons.mp hdl with rfl | hdt
    · simp only [classifyLoop, if_neg hp, hdang, if_true]
      constructor
      · exact loop_sticky_danger t _ _
      · exact loop_reasons_mono _ t _ _ _ (List.mem_append_right _ (by simp))
    · by_cases hd : hasDangerKw (pyStr h)
      · simp only [classifyLoop, if_neg hp, hd, if_true]
        exact ⟨loop_sticky_danger t _ _, (ih _ _ _ hnd' hdisj' hdt).2⟩
      · by_cases hc : hasCautionKw (pyStr h)
        · simp only [classifyLoop, if_neg hp, hd, hc, Bool.false_eq_true, if_false, if_true]
          exact ih _ _ _ hnd' hdisj' hdt
        · simp only [classifyLoop, if_neg hp, hd, hc, Bool.false_eq_true, if_false]
          exact ih _ _ _ hnd' hdisj' hdt

theorem loop_no_caution (ds : String) (hds : hasDangerKw ds = true) :
    ∀ (l processed : List (Option String)) (risk : String) (rs : List String),
      cautionLine ds ∉ rs → cautionLine ds ∉ (classifyLoop l processed risk rs).2 := by
  intro l
  induction l with
  | nil => intro p r rs h; exact h
  | cons h t ih =>
    intro p r rs hrs
    by_cases hp : h ∈ p
    · simp only [classifyLoop, if_pos hp]; exact ih _ _ _ hrs
    · by_cases hd : hasDangerKw (pyStr h)
      · simp only [classifyLoop, if_neg hp, hd, if_true]
        apply ih
        intro hmem
        rcases List.mem_append.mp hmem with h1 | h1
        · exact hrs h1
        · exact caution_ne_danger ds (pyStr h) (by simpa using h1)
      · by_cases hc : hasCautionKw (pyStr h)
        · simp only [classifyLoop, if_neg hp, hd, hc, Bool.false_eq_true, if_false, if_true]
          apply ih
          intro hmem
          rcases List.mem_append.mp hmem with h1 | h1
          · exact hrs h1
          · have heq : ds = pyStr h := cautionLine_inj (by simpa using h1)
            rw [heq] at hds
            simp [hds] at hd
        · simp only [classifyLoop, if_neg hp, hd, hc, Bool.false_eq_true, if_false]
          exact ih _ _ _ hrs

/-- C1: when classification reaches keyword processing (rows found, at most 2
distinct products) and some distinct detail contains a danger keyword,
classify returns level 위험 (danger), the explanation carries that detail's
위험 line, no 주의 (caution) line for that detail is ever emitted (caution
keywords are not tested once a danger keyword is found), and no later detail
downgrades the 위험 level. -/
theorem classify_danger_keyword_sticky (st : Store) (A B : String) (d : Option String)
    (k : String)
    (hA : 2 ≤ (normalize_text A).length) (hB : 2 ≤ (normalize_text B).length)
    (hf : st.fail = false)
    (hr : rowsOf st A B ≠ [])
    (hup : ¬ 2 < (uniqueProductsOf st A B).length)
    (hd : d ∈ detailsOf st A B)
    (hk : k ∈ dangerous_keywords)
    (hsub : strContains (pyStr d) k = true) :
    (check_drug_interaction_flexible st A B).1 = "위험" ∧
      dangerLine (pyStr d) ∈ (loopOf st A B).2 ∧
      cautionLine (pyStr d) ∉ (loopOf st A B).2 := by
  have hdang : hasDangerKw (pyStr d) = true := by
    unfold hasDangerKw
    rw [List.any_eq_true]
    exact ⟨k, hk, hsub⟩
  have hreach := loop_reach d hdang (detailsOf st A B) [] "안전" []
    (nodup_dedupFirst _) (by simp) hd
  have hnc := loop_no_caution (pyStr d) hdang (detailsOf st A B) [] "안전" [] (by simp)
  have hne2 : (loopOf st A B).2 ≠ [] :=
    fun h0 => by rw [show (loopOf st A B).2 =
      (classifyLoop (detailsOf st A B) [] "안전" []).2 from rfl] at h0; simp [h0] at hreach
  refine ⟨?_, hreach.2, hnc⟩
  unfold check_drug_interaction_flexible
  rw [if_neg (by omega), if_neg (by simp [hf]), if_neg hr, if_neg hup, if_neg hne2]
  exact hreach.1

theorem classify_danger_keyword_sticky_witness :
    (check_drug_interaction_flexible
        ⟨[⟨some "ab1", none, some "cd1", none, some "사망 위험"⟩], false⟩ "ab" "cd").1 = "위험" ∧
      dangerLine (pyStr (some "사망 위험")) ∈
        (loopOf ⟨[⟨some "ab1", none, some "cd1", none, some "사망 위험"⟩], false⟩ "ab" "cd").2 ∧
      cautionLine (pyStr (some "사망 위험")) ∉
        (loopOf ⟨[⟨some "ab1", none, some "cd1", none, some "사망 위험"⟩], false⟩ "ab" "cd").2 :=
  classify_danger_keyword_sticky _ "ab" "cd" (some "사망 위험") "사망" (by decide) (by decide)
    rfl (by decide) (by decide) (by decide) (by decide) (by decide)

example : parseIntent "타이레놀과 아스피린을 같이 복용해도 돼?" =
    Intent.interactionQuery "타이레놀" "아스피린" := by decide

example : parseIntent "타이레놀 성분이 뭐야?" = Intent.ingredientQuery "타이레놀" := by decide

example : parseIntent "안녕하세요 반갑습니다 여러분" = Intent.unrecognized := by decide

/-- C9: an interaction classification that did not come from the verbose
pattern can only arise from the two-token fallback, and only when the
ingredient pattern has also failed — so a prompt matching the ingredient
pattern is never classified as an interaction query by the fallback. -/
theorem intent_fallback_gated (p a b : String)
    (hpi : parseIntent p = Intent.interactionQuery a b)
    (hv : matchInteractionVerbose (pyStrip p) = none) :
    matchComponent (pyStrip p) = none ∧
      ∃ a0 b0, matchTwoTokens (pyStrip p) = some (a0, b0) ∧
        a = stripParenSpace a0 ∧ b = stripParenSpace b0 := by
  unfold parseIntent at hpi
  cases hcomp : matchComponent (pyStrip p) with
  | some g => rw [hcomp] at hpi; simp at hpi
  | none =>
    rw [hcomp, hv] at hpi
    refine ⟨rfl, ?_⟩
    cases htt : matchTwoTokens (pyStrip p) with
    | none => rw [htt] at hpi; simp at hpi
    | some ab =>
      rw [htt] at hpi
      obtain ⟨a0, b0⟩ := ab
      simp only [Intent.interactionQuery.injEq] at hpi
      exact ⟨a0, b0, rfl, hpi.1.symm, hpi.2.symm⟩

theorem intent_fallback_gated_witness :
    matchComponent (pyStrip "타이레놀 아스피린") = none ∧
      ∃ a0 b0, matchTwoTokens (pyStrip "타이레놀 아스피린") = some (a0, b0) ∧
        "타이레놀" = stripParenSpace a0 ∧ "아스피린" = stripParenSpace b0 :=
  intent_fallback_gated "타이레놀 아스피린" "타이레놀" "아스피린" (by decide) (by decide)

theorem char_toNat_inj {c d : Char} (h : c.toNat = d.toNat) : c = d :=
  Char.eq_of_val_eq (UInt32.toNat.inj h)

theorem toNat_ofNat_valid (n : Nat) (h : n.isValidChar) : (Char.ofNat n).toNat = n := by
  rw [Char.ofNat, dif_pos h]; rfl

theorem beq_char_toNat (c s : Char) : (c == s) = decide (c.toNat = s.toNat) := by
  by_cases h : c = s
  · subst h; simp
  · have hn : c.toNat ≠ s.toNat := fun he => h (char_toNat_inj he)
    simp [h, hn]

theorem isStripChar_toLower {c : Char} (h : isStripChar c = false) :
    isStripChar (Char.toLower c) = false := by
  by_cases hu : c.toNat ≥ 65 ∧ c.toNat ≤ 90
  · have hv : (c.toNat + 32).isValidChar := Or.inl (by omega)
    have ht : (Char.ofNat (c.toNat + 32)).toNat = c.toNat + 32 := toNat_ofNat_valid _ hv
    have e1 : (' ' : Char).toNat = 32 := rfl
    have e2 : ('\t' : Char).toNat = 9 := rfl
    have e3 : ('\n' : Char).toNat = 10 := rfl
    have e4 : ('\r' : Char).toNat = 13 := rfl
    have e5 : ('\x0b' : Char).toNat = 11 := rfl
    have e6 : ('\x0c' : Char).toNat = 12 := rfl
    have e7 : ('(' : Char).toNat = 40 := rfl
    have e8 : (')' : Char).toNat = 41 := rfl
    have e9 : ('[' : Char).toNat = 91 := rfl
    have e10 : (']' : Char).toNat = 93 := rfl
    have e11 : ('_' : Char).toNat = 95 := rfl
    have e12 : ('/' : Char).toNat = 47 := rfl
    have e13 : ('-' : Char).toNat = 45 := rfl
    simp only [Char.toLower, if_pos hu, isStripChar, isSpacePy, beq_char_toNat, ht,
      e1, e2, e3, e4, e5, e6, e7, e8, e9, e10, e11, e12, e13,
      Bool.or_eq_false_iff, decide_eq_false_iff_not]
    omega
  · simp only [Char.toLower, if_neg hu]
    exact h

theorem toLower_toLower (c : Char) : Char.toLower (Char.toLower c) = Char.toLower c := by
  by_cases hu : c.toNat ≥ 65 ∧ c.toNat ≤ 90
  · have hv : (c.toNat + 32).isValidChar := Or.inl (by omega)
    have ht : (Char.ofNat (c.toNat + 32)).toNat = c.toNat + 32 := toNat_ofNat_valid _ hv
    simp only [Char.toLower, if_pos hu, ht]
    rw [if_neg (by omega)]
  · simp only [Char.toLower, if_neg hu]

theorem scanRemoveF_no_strip :
    ∀ (f : Nat) (l : List Char), l.length ≤ f →
      ∀ c ∈ scanRemoveF f l, isStripChar c = false := by
  intro f
  induction f with
  | zero =>
    intro l hl c hc
    have h0 : l = [] := List.length_eq_zero.mp (Nat.le_zero.mp hl)
    subst h0
    simp [scanRemoveF] at hc
  | succ f ih =>
    intro l hl c hc
    cases l with
    | nil => simp [scanRemoveF] at hc
    | cons x xs =>
      have hxs : xs.length ≤ f := by simp at hl; omega
      have hd1 : (xs.drop 1).length ≤ f := by simp [List.length_drop]; omega
      have hd2 : (xs.drop 2).length ≤ f := by simp [List.length_drop]; omega
      simp only [scanRemoveF] at hc
      by_cases h1 : isStripChar x
      · rw [if_pos h1] at hc; exact ih xs hxs c hc
      rw [if_neg h1] at hc
      by_cases h2 : tokJusaje.isPrefixOf (x :: xs)
      · rw [if_pos h2] at hc; exact ih _ hd2 c hc
      rw [if_neg h2] at hc
      by_cases h3 : tokJeongje.isPrefixOf (x :: xs)
      · rw [if_pos h3] at hc; exact ih _ hd1 c hc
      rw [if_neg h3] at hc
      by_cases h4 : x == '정'
      · rw [if_pos h4] at hc; exact ih xs hxs c hc
      rw [if_neg h4] at hc
      by_cases h5 : x == '약'
      · rw [if_pos h5] at hc; exact ih xs hxs c hc
      rw [if_neg h5] at hc
      by_cases h6 : tokCapsule.isPrefixOf (x :: xs)
      · rw [if_pos h6] at hc; exact ih _ hd1 c hc
      rw [if_neg h6] at hc
      by_cases h7 : tokSyrup.isPrefixOf (x :: xs)
      · rw [if_pos h7] at hc; exact ih _ hd1 c hc
      rw [if_neg h7] at hc
      rcases List.mem_cons.mp hc with rfl | hc2
      · simpa using h1
      · exact ih xs hxs c hc2

theorem isSubL_of_isPrefixOf {p l : List Char} (h : p.isPrefixOf l = true) :
    isSubL p l = true := by
  cases l with
  | nil =>
    cases p with
    | nil => rfl
    | cons a as => simp [List.isPrefixOf] at h
  | cons c cs => simp [isSubL, h]

theorem isSubL_cons {p : List Char} (c : Char) {l : List Char} (h : isSubL p l = true) :
    isSubL p (c :: l) = true := by
  simp [isSubL, h]

theorem tokensFree_cons {c : Char} {l : List Char} (h : tokensFree (c :: l) = true) :
    tokensFree l = true := by
  unfold tokensFree at *
  simp only [List.all_eq_true, Bool.not_eq_true'] at *
  intro t ht
  by_cases hs : isSubL t l = true
  · exact absurd (isSubL_cons c hs) (by simp [h t ht])
  · simpa using hs

theorem scanRemoveF_fixed :
    ∀ (f : Nat) (l : List Char), l.length ≤ f →
      (∀ c ∈ l, isStripChar c = false) → tokensFree l = true → scanRemoveF f l = l := by
  intro f
  induction f with
  | zero => intro l _ _ _; rfl
  | succ f ih =>
    intro l hl hstrip htf
    cases l with
    | nil => rfl
    | cons x xs =>
      have h1 : isStripChar x = false := hstrip x (by simp)
      have hT : ∀ t ∈ removalTokens, isSubL t (x :: xs) = false := by
        have h0 := htf
        unfold tokensFree at h0
        simp only [List.all_eq_true, Bool.not_eq_true'] at h0
        exact h0
      have hpf : ∀ t ∈ removalTokens, t.isPrefixOf (x :: xs) = false := by
        intro t ht
        by_cases hp : t.isPrefixOf (x :: xs) = true
        · exact absurd (isSubL_of_isPrefixOf hp) (by simp [hT t ht])
        · exact Bool.eq_false_iff.mpr hp
      have h2 : tokJusaje.isPrefixOf (x :: xs) = false := hpf _ (by simp [removalTokens])
      have h3 : tokJeongje.isPrefixOf (x :: xs) = false := hpf _ (by simp [removalTokens])
      have h6 : tokCapsule.isPrefixOf (x :: xs) = false := hpf _ (by simp [removalTokens])
      have h7 : tokSyrup.isPrefixOf (x :: xs) = false := hpf _ (by simp [removalTokens])
      have h4 : (x == '정') = false := by
        by_cases hx : x = '정'
        · subst hx
          have h0 := hpf ['정'] (by simp [removalTokens])
          simp [List.isPrefixOf] at h0
        · simp [hx]
      have h5 : (x == '약') = false := by
        by_cases hx : x = '약'
        · subst hx
          have h0 := hpf ['약'] (by simp [removalTokens])
          simp [List.isPrefixOf] at h0
        · simp [hx]
      simp only [scanRemoveF, h1, h2, h3, h4, h5, h6, h7, Bool.false_eq_true, if_false]
      congr 1
      exact ih xs (by simp at hl; omega) (fun c hc => hstrip c (by simp [hc]))
        (tokensFree_cons htf)

theorem dropWhile_eq_self_of_none {p : Char → Bool} {l : List Char}
    (h : ∀ c ∈ l, p c = false) : l.dropWhile p = l := by
  cases l with
  | nil => rfl
  | cons x xs => simp [List.dropWhile, h x (by simp)]

theorem stripEnds_eq_self {l : List Char} (h : ∀ c ∈ l, isSpacePy c = false) :
    stripEnds l = l := by
  unfold stripEnds
  rw [dropWhile_eq_self_of_none h,
    dropWhile_eq_self_of_none (by intro c hc; exact h c (by simpa using hc)),
    List.reverse_reverse]

theorem stripEnds_subset {c : Char} {l : List Char} (h : c ∈ stripEnds l) : c ∈ l := by
  unfold stripEnds at h
  rw [List.mem_reverse] at h
  have h2 := (List.dropWhile_sublist isSpacePy).subset h
  rw [List.mem_reverse] at h2
  exact (List.dropWhile_sublist isSpacePy).subset h2

theorem map_toLower_fixed {l : List Char} :
    (l.map Char.toLower).map Char.toLower = l.map Char.toLower := by
  rw [List.map_map]
  simp [Function.comp, toLower_toLower]

theorem normalize_no_strip (x : String) :
    ∀ c ∈ (normalize_text x).data, isStripChar c = false := by
  intro c hc
  simp only [normalize_text, List.mem_map] at hc
  obtain ⟨c0, hc0, rfl⟩ := hc
  apply isStripChar_toLower
  exact scanRemoveF_no_strip _ _ (Nat.le_refl _) c0 (stripEnds_subset hc0)

/-- C6 amended: normalization is idempotent for every string whose normalized
form contains none of the six removable dosage-form tokens as a substring —
on such values the substitution pass, the strip and the lower-casing are all
identities, so a second normalization changes nothing. -/
theorem normalize_idem_of_tokensFree (x : String)
    (h : tokensFree (normalize_text x).data = true) :
    normalize_text (normalize_text x) = normalize_text x := by
  have hns : ∀ c ∈ (normalize_text x).data, isStripChar c = false := normalize_no_strip x
  have hscan : scanRemove (normalize_text x).data = (normalize_text x).data :=
    scanRemoveF_fixed _ _ (Nat.le_refl _) hns h
  have hnspace : ∀ c ∈ (normalize_text x).data, isSpacePy c = false := by
    intro c hc
    have h0 := hns c hc
    simp only [isStripChar, Bool.or_eq_false_iff] at h0
    exact h0.1.1.1.1.1.1.1
  have hstrip : stripEnds (normalize_text x).data = (normalize_text x).data :=
    stripEnds_eq_self hnspace
  have hlower : ((normalize_text x).data).map Char.toLower = (normalize_text x).data :=
    map_toLower_fixed
  show String.mk ((stripEnds (scanRemove (normalize_text x).data)).map Char.toLower) =
    normalize_text x
  rw [hscan, hstrip, hlower]

theorem normalize_idem_of_tokensFree_witness :
    tokensFree (normalize_text "Tylenol (500mg)").data = true ∧
      normalize_text (normalize_text "Tylenol (500mg)") = normalize_text "Tylenol (500mg)" :=
  ⟨by decide, normalize_idem_of_tokensFree _ (by decide)⟩

example : normalize_text "Tylenol (500mg)" = "tylenol500mg" := by decide

example : normalize_text "주주사제사제" = "주사제" := by decide

example : normalize_text "TylenolER" = "tylenoler" := by decide

example :
    check_drug_interaction_flexible
      ⟨[⟨some "TylenolER", some "acetaminophen", some "AspirinPlus", some "aspirin",
         some "contraindicated, risk of death"⟩], false⟩
      "tylenol" "aspirin" = ("정보 확인", fallbackMsg) := by decide

end DeepDDI
